import Mathlib

/-!
# Verification of the robot path/command compiler

A shallow embedding of `autonomus_command_generator.py` (class `FieldCanvas`):
the path model, the actuator-command state machine, the motion densifier and
the export pipeline.  Coordinates are modelled as exact rationals (the Python
floats idealised); the two real-valued quantities of the code, Euclidean
distance (`math.sqrt`) and heading (`math.degrees(math.atan2 ...)`), are
modelled over `ℝ`.  Wherever the code *branches* on a distance
(`int(distance / threshold)`, `distance >= distance_threshold`) the embedding
uses an exact rational encoding of the same comparison, and bridging lemmas
(`ratSqrtFloor_eq_floor_sqrt`, `le_sqrt_check_iff`) prove the encoding equal
to the real-number reading.
-/

namespace RobotPath

/-- A point on the field canvas: the `(x, y)` tuples of the Python code. -/
@[ext]
structure Point where
  x : ℚ
  y : ℚ
deriving DecidableEq

/-- The command types of the `COMMANDS` table ('Pick Up', 'Place', 'Scoop',
'Release', 'Clasp', 'None'). -/
inductive Cmd where
  | pickUp
  | place
  | scoop
  | release
  | clasp
  | none
deriving DecidableEq

/-- Command-assignment errors (§7 taxonomy).  In the source these surface as
the `messagebox.showerror` calls of `assign_command` / `remove_command`:
"Clasp Required", "No Scoops", "No Waypoint Selected". -/
inductive CommandError where
  | claspRequired
  | noPendingScoop
  | noWaypointSelected
deriving DecidableEq

/-- Path-editing errors (§7 taxonomy).  The source only ever surfaces
`restrictedRegion` (the "Invalid Point" messagebox of `is_valid_point`);
the remaining constructors exist so the spec's claims can be stated. -/
inductive PathError where
  | alreadyStarted
  | empty
  | noActiveCurve
  | restrictedRegion
  | curveInProgress
deriving DecidableEq

/-- The side-restriction selection (`self.selected_side`). -/
inductive Side where
  | left
  | right
  | noSide
deriving DecidableEq

/-- `CENTRAL_LINE_OFFSET = 10`. -/
def CENTRAL_LINE_OFFSET : ℚ := 10

/-- The mutable state of a `FieldCanvas` instance (the fields the compiler
core reads and writes; canvas/drawing fields are out of scope).
`waypoint_commands` is the Python dict keyed by raw coordinate pairs,
modelled as a total function defaulting to `Cmd.none` (every appended point
is immediately given entry `'None'`). `selected_waypoint_index` uses the
source's `-1` sentinel for "nothing selected". -/
structure FieldCanvas where
  path_points : List Point
  selected_waypoint_index : ℤ
  waypoint_commands : Point → Cmd
  pending_clasp : Bool
  scoops_to_release : ℕ
  dragging_curve : Bool
  selected_side : Side
  central_line_x : ℚ

/-- Squared Euclidean distance: the radicand of `calculate_distance`. -/
def distSq (p1 p2 : Point) : ℚ :=
  (p2.x - p1.x) ^ 2 + (p2.y - p1.y) ^ 2

/-- Exact floor of the square root of a nonnegative rational:
`ratSqrtFloor (a / b) = Nat.sqrt (a * b) / b`.  Encodes
`int(math.sqrt q)`; `ratSqrtFloor_eq_floor_sqrt` proves it equal to
`⌊Real.sqrt q⌋₊`. -/
def ratSqrtFloor (q : ℚ) : ℕ :=
  Nat.sqrt (q.num.toNat * q.den) / q.den

/-- `num_points = max(1, int(distance / distance_threshold))` from the
straight-line branch of `generate_intermediate_points`, encoded exactly:
`⌊√s / d⌋ = ⌊√(s / d²)⌋` for `d > 0`
(see `num_points_eq_max_floor`). -/
def num_points (p1 p2 : Point) (d : ℚ) : ℕ :=
  max 1 (ratSqrtFloor (distSq p1 p2 / d ^ 2))

/-- The straight-line interpolation `(p1[0] + t*(p2[0]-p1[0]), p1[1] + t*(p2[1]-p1[1]))`. -/
def lerp (p1 p2 : Point) (t : ℚ) : Point :=
  ⟨p1.x + t * (p2.x - p1.x), p1.y + t * (p2.y - p1.y)⟩

/-- One quadratic Bezier evaluation, from `calculate_quadratic_bezier_points`:
`x = (1-t)²·p1.x + 2(1-t)t·control.x + t²·p2.x`, and likewise for `y`. -/
def bezier_point (p1 p2 control : Point) (t : ℚ) : Point :=
  ⟨(1 - t) ^ 2 * p1.x + 2 * (1 - t) * t * control.x + t ^ 2 * p2.x,
   (1 - t) ^ 2 * p1.y + 2 * (1 - t) * t * control.y + t ^ 2 * p2.y⟩

/-- `calculate_quadratic_bezier_points`: 101 samples at `t = k/100`,
`k = 0, …, 100`. -/
def calculate_quadratic_bezier_points (p1 p2 control : Point) : List Point :=
  (List.range 101).map (fun k : ℕ => bezier_point p1 p2 control ((k : ℚ) / 100))

/-- Decidable encoding of `d ≤ √s` (for `0 ≤ s`): true iff `d ≤ 0` or
`d² ≤ s`.  Encodes the code's `distance >= distance_threshold` test with
`s` the squared distance; `le_sqrt_check_iff` proves it equal to the
real comparison. -/
def le_sqrt_check (d s : ℚ) : Bool :=
  decide (d ≤ 0) || decide (d ^ 2 ≤ s)

/-- The Bezier-branch loop of `generate_intermediate_points`:
`for i in range(1, len(bezier_points)): if dist(bezier_points[i-1], bezier_points[i]) >= threshold: points.append(bezier_points[i])`.
Note the comparison is against the *previous sampled* point (`i - 1`),
not the previous retained point. -/
def consec_filter (d : ℚ) : Point → List Point → List Point
  | _, [] => []
  | prev, q :: rest =>
    (if le_sqrt_check d (distSq prev q) then [q] else []) ++ consec_filter d q rest

/-- `generate_intermediate_points(p1, p2, control=None, distance_threshold=3)`.
`control = none` is the straight-line branch, `control = some c` the Bezier
branch. -/
def generate_intermediate_points (p1 p2 : Point) (control : Option Point) (d : ℚ) :
    List Point :=
  match control with
  | Option.none =>
    let n := num_points p1 p2 d
    (List.range n).map (fun i : ℕ => lerp p1 p2 (((i : ℚ) + 1) / (n : ℚ)))
  | Option.some c =>
    match calculate_quadratic_bezier_points p1 p2 c with
    | [] => []
    | q :: rest => consec_filter d q rest

/-- `calculate_distance`: `math.sqrt((p2[0]-p1[0])**2 + (p2[1]-p1[1])**2)`. -/
noncomputable def calculate_distance (p1 p2 : Point) : ℝ :=
  Real.sqrt ((distSq p1 p2 : ℚ) : ℝ)

/-- `calculate_heading`: `math.degrees(math.atan2(dy, dx))`, with
`atan2 dy dx = Complex.arg ⟨dx, dy⟩` (range `(-π, π]`). -/
noncomputable def calculate_heading (p1 p2 : Point) : ℝ :=
  Complex.arg ⟨((p2.x - p1.x : ℚ) : ℝ), ((p2.y - p1.y : ℚ) : ℝ)⟩ * 180 / Real.pi

/-- `calculate_dynamic_speed`: `min(base_speed + (distance/100)*(max_speed - base_speed), max_speed)`
with `base_speed = 40`, `max_speed = 100`. -/
noncomputable def calculate_dynamic_speed (distance : ℝ) : ℝ :=
  min (40 + distance / 100 * (100 - 40)) 100

/-- One exported record of the `autonomous_commands[]` array (equally one
transcript line).  `actuator` records carry a command tag; `move` records
are `CMD_MOVE_WITH_HEADING`.  Both store `pos` (the written `x, y`) and the
segment endpoints `seg` from which the written heading was computed; a move
record's written speed is computed from `dist (seg.1) pos`
(`Instruction.heading` / `Instruction.speed` below). -/
inductive Instruction where
  | actuator (c : Cmd) (pos : Point) (seg : Point × Point)
  | move (pos : Point) (seg : Point × Point)
deriving DecidableEq

/-- The heading value written for a record: the code computes
`heading = self.calculate_heading(p1, p2)` from the record's segment. -/
noncomputable def Instruction.heading : Instruction → ℝ
  | .actuator _ _ seg => calculate_heading seg.1 seg.2
  | .move _ seg => calculate_heading seg.1 seg.2

/-- The speed value written for a record: literal `0` for actuator records;
`calculate_dynamic_speed(calculate_distance(p1, point))` for move records. -/
noncomputable def Instruction.speed : Instruction → ℝ
  | .actuator _ _ _ => 0
  | .move pos seg => calculate_dynamic_speed (calculate_distance seg.1 pos)

/-- One iteration of the export loop for the segment `(p1, p2)` whose start
waypoint carries command `c = waypoint_commands[p1]`: the actuator record at
`p1` when `c ≠ 'None'`, then one move record per intermediate point.  The
export is modelled in the quiescent state `dragging_curve = False`, so
`generate_intermediate_points(p1, p2)` runs its straight branch with the
default threshold `3` (when `dragging_curve` is `True` the code instead
calls `self.calculate_bezier_control_point`, a method that does not exist,
and dies with `AttributeError`). -/
def segment_export (p1 p2 : Point) (c : Cmd) : List Instruction :=
  (if c = Cmd.none then [] else [Instruction.actuator c p1 (p1, p2)]) ++
    (generate_intermediate_points p1 p2 Option.none 3).map
      (fun q => Instruction.move q (p1, p2))

/-- The export loop `for i in range(len(self.path_points) - 1)` started at
head `p1` with remaining points `rest`; returns the emitted records together
with the last `(p1, p2)` pair processed (whose heading the Python variable
`heading` still holds after the loop). -/
def compile_body (cmds : Point → Cmd) : Point → List Point → List Instruction × (Point × Point)
  | p1, [] => ([], (p1, p1))
  | p1, [p2] => (segment_export p1 p2 (cmds p1), (p1, p2))
  | p1, p2 :: p3 :: rest =>
    let r := compile_body cmds p2 (p3 :: rest)
    (segment_export p1 p2 (cmds p1) ++ r.1, r.2)

/-- The full record sequence written by `export_to_files` for path `pts` and
command table `cmds`: the loop output, then the trailing actuator record for
`path_points[-1]` when its command is not `'None'`, written with the
post-loop value of `heading`.  `none` models a crash: on an empty path
`self.path_points[-1]` raises `IndexError`; on a one-point path with a
non-`'None'` command the trailing write reads the never-assigned local
`heading` and raises `NameError`. -/
def compile (pts : List Point) (cmds : Point → Cmd) : Option (List Instruction) :=
  match pts with
  | [] => Option.none
  | [p] => if cmds p = Cmd.none then Option.some [] else Option.none
  | p1 :: p2 :: rest =>
    let r := compile_body cmds p1 (p2 :: rest)
    Option.some (r.1 ++
      (if cmds r.2.2 = Cmd.none then [] else [Instruction.actuator (cmds r.2.2) r.2.2 r.2]))

/-- Just the loop part of the export (no trailing actuator record). -/
def compile_loop (pts : List Point) (cmds : Point → Cmd) : List Instruction :=
  match pts with
  | p1 :: p2 :: rest => (compile_body cmds p1 (p2 :: rest)).1
  | _ => []

/-- The lines of the generated `.cpp` file, in write order: the fixed
boilerplate (`#include`, the enum, the struct, `Command autonomous_commands[] = {`),
one record line per instruction, then the closing brace and the
`num_autonomous_commands` declaration. -/
inductive CFileLine where
  | includeHeader
  | enumDef
  | structDef
  | arrayOpen
  | record (i : Instruction)
  | arrayClose
  | countDecl
deriving DecidableEq

/-- Content of the struct-array (`.cpp`) file written by `export_to_files`
(`none` = the export crashed, see `compile`). -/
def c_file_lines (pts : List Point) (cmds : Point → Cmd) : Option (List CFileLine) :=
  (compile pts cmds).map (fun l =>
    [CFileLine.includeHeader, CFileLine.enumDef, CFileLine.structDef, CFileLine.arrayOpen] ++
      l.map CFileLine.record ++ [CFileLine.arrayClose, CFileLine.countDecl])

/-- Content of the transcript (`.txt`) file: exactly one line per emitted
instruction, in the same order (the TXT loop of `export_to_files` repeats
the computation of the C-file loop and writes no boilerplate). -/
def txt_file_lines (pts : List Point) (cmds : Point → Cmd) : Option (List Instruction) :=
  compile pts cmds

/-- The all-`'None'` command table of a freshly drawn path. -/
def no_commands : Point → Cmd := fun _ => Cmd.none

/-- `is_valid_point`: a proposed `x` is rejected on the shaded side of the
central line, with slack `CENTRAL_LINE_OFFSET`. -/
def is_valid_point (s : FieldCanvas) (x : ℚ) : Bool :=
  if s.selected_side = Side.left ∧ s.central_line_x - CENTRAL_LINE_OFFSET < x then
    false
  else if s.selected_side = Side.right ∧ x < s.central_line_x + CENTRAL_LINE_OFFSET then
    false
  else
    true

/-- `add_starting_point`: append the very first point and give it command
`'None'`. -/
def add_starting_point (s : FieldCanvas) (p : Point) : FieldCanvas :=
  { s with
    path_points := s.path_points ++ [p]
    waypoint_commands := Function.update s.waypoint_commands p Cmd.none }

/-- `add_straight_line` (right-click): reject invalid points, delegate the
first point to `add_starting_point`, otherwise append a waypoint with
command `'None'`.  Note there is no check of `dragging_curve`. -/
def add_straight_line (s : FieldCanvas) (p : Point) : FieldCanvas × Option PathError :=
  if is_valid_point s p.x = false then
    (s, Option.some PathError.restrictedRegion)
  else if s.path_points.isEmpty then
    (add_starting_point s p, Option.none)
  else
    ({ s with
        path_points := s.path_points ++ [p]
        waypoint_commands := Function.update s.waypoint_commands p Cmd.none },
     Option.none)

/-- `start_curve_point` (left-click press): as `add_straight_line` but also
raising the `dragging_curve` flag in the appending branch.  Note there is
no check that a previous gesture is still open. -/
def start_curve_point (s : FieldCanvas) (p : Point) : FieldCanvas × Option PathError :=
  if is_valid_point s p.x = false then
    (s, Option.some PathError.restrictedRegion)
  else if s.path_points.isEmpty then
    (add_starting_point s p, Option.none)
  else
    ({ s with
        path_points := s.path_points ++ [p]
        waypoint_commands := Function.update s.waypoint_commands p Cmd.none
        dragging_curve := true },
     Option.none)

/-- `assign_command`, translated statement by statement.  The waypoint lookup
`self.path_points[self.selected_waypoint_index]` is modelled with `getD`
(the guarded index is `-1` or a cycled in-range index, so the default is
never consulted in reachable states). -/
def assign_command (s : FieldCanvas) (command : Cmd) : FieldCanvas × Option CommandError :=
  if s.selected_waypoint_index = -1 then
    (s, Option.some CommandError.noWaypointSelected)
  else
    let selected_wp := s.path_points.getD s.selected_waypoint_index.toNat ⟨0, 0⟩
    if command = Cmd.scoop ∧ s.pending_clasp = false then
      (s, Option.some CommandError.claspRequired)
    else
      let s1 := if command = Cmd.scoop then
        { s with scoops_to_release := s.scoops_to_release + 1 } else s
      let s2 := if command = Cmd.clasp then { s1 with pending_clasp := true } else s1
      if command = Cmd.release ∧ s2.scoops_to_release = 0 then
        (s2, Option.some CommandError.noPendingScoop)
      else
        let s3 := if command = Cmd.release then
          { s2 with scoops_to_release := 0, pending_clasp := false } else s2
        ({ s3 with
            waypoint_commands := Function.update s3.waypoint_commands selected_wp command },
         Option.none)

/-- `remove_command`: unconditionally reset the selected waypoint's command
to `'None'` (no rollback of `pending_clasp` / `scoops_to_release`). -/
def remove_command (s : FieldCanvas) : FieldCanvas × Option CommandError :=
  if s.selected_waypoint_index = -1 then
    (s, Option.some CommandError.noWaypointSelected)
  else
    let selected_wp := s.path_points.getD s.selected_waypoint_index.toNat ⟨0, 0⟩
    ({ s with
        waypoint_commands := Function.update s.waypoint_commands selected_wp Cmd.none },
     Option.none)

/-- The command-sequence state of §4.3: `{clasped, pendingScoops}`
(`pending_clasp` / `scoops_to_release` in the source). -/
structure CmdState where
  clasped : Bool
  pendingScoops : ℕ
deriving DecidableEq

/-- The §4.3 transition table, written from the spec's words:
Clasp always sets `clasped := true`; Scoop needs `clasped` and increments
`pendingScoops`; Release needs `pendingScoops > 0` and resets the state to
`{false, 0}`; PickUp / Place / None change nothing. -/
def tryAssignSpec (st : CmdState) (c : Cmd) : Except CommandError CmdState :=
  match c with
  | Cmd.clasp => Except.ok { st with clasped := true }
  | Cmd.scoop =>
    if st.clasped then Except.ok { st with pendingScoops := st.pendingScoops + 1 }
    else Except.error CommandError.claspRequired
  | Cmd.release =>
    if 0 < st.pendingScoops then Except.ok ⟨false, 0⟩
    else Except.error CommandError.noPendingScoop
  | _ => Except.ok st

/-- Spec-side curve densifier, written from the spec's words: walk the
Bezier samples and keep a sample exactly when its distance from the
previous *retained* point (initially the first sample) is at least the
threshold. -/
def retain_walk (d : ℚ) : Point → List Point → List Point
  | _, [] => []
  | prev, q :: rest =>
    if le_sqrt_check d (distSq prev q) then q :: retain_walk d q rest
    else retain_walk d prev rest

/-- Spec-side curved-segment densification (§4.4 second paragraph). -/
def densify_curve_spec (p1 p2 c : Point) (d : ℚ) : List Point :=
  match calculate_quadratic_bezier_points p1 p2 c with
  | [] => []
  | q :: rest => retain_walk d q rest

/-! ## Bridging lemmas: the exact rational encodings equal their
real-number readings. -/

theorem distSq_nonneg (p1 p2 : Point) : 0 ≤ distSq p1 p2 :=
  add_nonneg (sq_nonneg _) (sq_nonneg _)

theorem distSq_cast_nonneg (p1 p2 : Point) : (0 : ℝ) ≤ ((distSq p1 p2 : ℚ) : ℝ) := by
  exact_mod_cast distSq_nonneg p1 p2

/-- `calculate_distance` is nonnegative. -/
theorem calculate_distance_nonneg (p1 p2 : Point) : 0 ≤ calculate_distance p1 p2 :=
  Real.sqrt_nonneg _

/-- The rational floor-sqrt encoding agrees with the real `⌊√·⌋`. -/
theorem ratSqrtFloor_eq_floor_sqrt (q : ℚ) (hq : 0 ≤ q) :
    ratSqrtFloor q = ⌊Real.sqrt ((q : ℚ) : ℝ)⌋₊ := by
  have hb0 : (0 : ℝ) < (q.den : ℝ) := by exact_mod_cast q.pos
  have hnum : ((q.num.toNat : ℕ) : ℝ) = ((q.num : ℤ) : ℝ) := by
    exact_mod_cast congrArg (fun z : ℤ => (z : ℝ)) (Int.toNat_of_nonneg (Rat.num_nonneg.mpr hq))
  have hcast : ((q : ℚ) : ℝ) = ((q.num.toNat * q.den : ℕ) : ℝ) / ((q.den : ℝ) ^ 2) := by
    rw [Rat.cast_def]
    push_cast [hnum]
    field_simp
    ring
  rw [ratSqrtFloor, hcast, Real.sqrt_div' _ (sq_nonneg _), Real.sqrt_sq hb0.le,
    Nat.floor_div_nat, Real.nat_floor_real_sqrt_eq_nat_sqrt]

/-- The encoded `num_points` is the spec's
`n = max(1, floor(distance(p1,p2) / d))`. -/
theorem num_points_eq_max_floor (p1 p2 : Point) (d : ℚ) (hd : 0 < d) :
    num_points p1 p2 d =
      max 1 ⌊Real.sqrt ((distSq p1 p2 : ℚ) : ℝ) / (d : ℝ)⌋₊ := by
  have h1 : (0 : ℚ) ≤ distSq p1 p2 / d ^ 2 :=
    div_nonneg (distSq_nonneg p1 p2) (by positivity)
  rw [num_points, ratSqrtFloor_eq_floor_sqrt _ h1]
  have h2 : ((distSq p1 p2 / d ^ 2 : ℚ) : ℝ) =
      ((distSq p1 p2 : ℚ) : ℝ) / ((d : ℝ) ^ 2) := by push_cast; ring
  rw [h2, Real.sqrt_div' _ (by positivity), Real.sqrt_sq (by exact_mod_cast hd.le)]

/-- The boolean threshold test `le_sqrt_check d (distSq p q)` is exactly the
code's real comparison `calculate_distance p q ≥ d`. -/
theorem le_sqrt_check_iff (d : ℚ) (p q : Point) :
    le_sqrt_check d (distSq p q) = true ↔ (d : ℝ) ≤ calculate_distance p q := by
  rw [le_sqrt_check, calculate_distance]
  rcases le_or_lt d 0 with h | h
  · simp only [decide_eq_true_eq, Bool.or_eq_true]
    constructor
    · intro _
      exact le_trans (by exact_mod_cast h) (Real.sqrt_nonneg _)
    · intro _
      exact Or.inl h
  · simp only [decide_eq_true_eq, Bool.or_eq_true]
    rw [Real.le_sqrt' (by exact_mod_cast h)]
    constructor
    · rintro (h' | h')
      · exact absurd h' (not_le.mpr h)
      · exact_mod_cast h'
    · intro h'
      exact Or.inr (by exact_mod_cast h')

/-! ## Structural lemmas about the compiler -/

/-- `x` and `y` occur as a consecutive waypoint pair of `pts`
(so `x` is the start waypoint of the segment `(x, y)`). -/
def consecPair (pts : List Point) (x y : Point) : Prop :=
  ∃ k : ℕ, pts[k]? = Option.some x ∧ pts[k + 1]? = Option.some y

/-- After the export loop, the retained `(p1, p2)` pair is the final
consecutive pair of the path. -/
theorem compile_body_snd (cmds : Point → Cmd) :
    ∀ (mid : List Point) (p1 a b : Point),
      (compile_body cmds p1 (mid ++ [a, b])).2 = (a, b) := by
  intro mid
  induction mid with
  | nil => intro p1 a b; rfl
  | cons m ms ih =>
    intro p1 a b
    have h := ih m a b
    cases ms with
    | nil => simp [compile_body]
    | cons x xs => simpa [compile_body] using h

/-- Every record emitted by the export loop comes from one iteration over a
consecutive waypoint pair. -/
theorem compile_body_mem (cmds : Point → Cmd) :
    ∀ (rest : List Point) (p1 : Point) (inst : Instruction),
      inst ∈ (compile_body cmds p1 rest).1 →
      ∃ x y, consecPair (p1 :: rest) x y ∧ inst ∈ segment_export x y (cmds x) := by
  intro rest
  induction rest with
  | nil => intro p1 inst h; simp [compile_body] at h
  | cons p2 rest2 ih =>
    intro p1 inst h
    cases rest2 with
    | nil =>
      refine ⟨p1, p2, ⟨0, rfl, rfl⟩, ?_⟩
      simpa [compile_body] using h
    | cons p3 rest3 =>
      rw [compile_body] at h
      rcases List.mem_append.mp h with h' | h'
      · exact ⟨p1, p2, ⟨0, rfl, rfl⟩, h'⟩
      · obtain ⟨x, y, ⟨k, hk1, hk2⟩, hmem⟩ := ih p2 inst h'
        exact ⟨x, y, ⟨k + 1, by simpa using hk1, by simpa using hk2⟩, hmem⟩

/-- The records of one export-loop iteration: the optional actuator record
at `p1`, and one move record per intermediate point, all carrying the
segment `(p1, p2)`. -/
theorem segment_export_mem (p1 p2 : Point) (c : Cmd) (inst : Instruction) :
    inst ∈ segment_export p1 p2 c ↔
      (c ≠ Cmd.none ∧ inst = Instruction.actuator c p1 (p1, p2)) ∨
      (∃ q ∈ generate_intermediate_points p1 p2 Option.none 3,
        inst = Instruction.move q (p1, p2)) := by
  rw [segment_export]
  by_cases hc : c = Cmd.none
  · simp [hc, List.mem_map, eq_comm]
  · simp [hc, List.mem_map, eq_comm]

/-- `consec_filter` keeps nothing exactly when every consecutive pair of the
walked chain is below the threshold. -/
theorem consec_filter_eq_nil_iff (d : ℚ) :
    ∀ (l : List Point) (prev : Point),
      consec_filter d prev l = [] ↔
        List.Chain' (fun a b => le_sqrt_check d (distSq a b) = false) (prev :: l) := by
  intro l
  induction l with
  | nil => intro prev; simp [consec_filter]
  | cons q rest ih =>
    intro prev
    rw [consec_filter]
    by_cases h : le_sqrt_check d (distSq prev q) = true
    · simp [h, List.chain'_cons]
    · rw [Bool.not_eq_true] at h
      simp [h, ih q, List.chain'_cons]

/-- `consec_filter` is the pairwise filter over consecutive samples: it keeps
`l[i]` exactly when the step from `l[i-1]` (with `prev` in front) passes the
threshold test. -/
theorem consec_filter_eq_zip_filter (d : ℚ) :
    ∀ (l : List Point) (prev : Point),
      consec_filter d prev l =
        (((prev :: l).zip l).filter
          (fun pr => le_sqrt_check d (distSq pr.1 pr.2))).map Prod.snd := by
  intro l
  induction l with
  | nil => intro prev; simp [consec_filter]
  | cons q rest ih =>
    intro prev
    rw [consec_filter, ih q]
    by_cases h : le_sqrt_check d (distSq prev q) = true
    · simp [List.zip_cons_cons, List.filter_cons, h]
    · rw [Bool.not_eq_true] at h
      simp [List.zip_cons_cons, List.filter_cons, h]

/-- The spec-side retained walk keeps nothing exactly when no sample is far
enough from the *initial* retained point (if nothing is kept the retained
point never advances). -/
theorem retain_walk_eq_nil_iff (d : ℚ) :
    ∀ (l : List Point) (prev : Point),
      retain_walk d prev l = [] ↔
        ∀ q ∈ l, le_sqrt_check d (distSq prev q) = false := by
  intro l
  induction l with
  | nil => intro prev; simp [retain_walk]
  | cons q rest ih =>
    intro prev
    rw [retain_walk]
    by_cases h : le_sqrt_check d (distSq prev q) = true
    · simp [h]
    · rw [Bool.not_eq_true] at h
      simp [h, ih prev]

/-- Heading of a horizontal segment pointing in the `+x` direction is `0`
degrees. -/
theorem calculate_heading_horizontal (p1 p2 : Point) (hy : p2.y = p1.y)
    (hx : p1.x ≤ p2.x) : calculate_heading p1 p2 = 0 := by
  rw [calculate_heading]
  have him : ((p2.y - p1.y : ℚ) : ℝ) = 0 := by
    rw [hy]; push_cast; ring
  have harg :
      (⟨((p2.x - p1.x : ℚ) : ℝ), ((p2.y - p1.y : ℚ) : ℝ)⟩ : ℂ) =
        (((p2.x - p1.x : ℚ) : ℝ) : ℂ) := by
    rw [Complex.ext_iff]
    constructor
    · simp
    · simpa using him
  rw [harg, Complex.arg_ofReal_of_nonneg (by exact_mod_cast sub_nonneg.mpr hx)]
  ring

/-! ## Concrete editing states used by witnesses and counterexamples -/

/-- A small editing state: a two-point path, waypoint 0 selected, fresh
command state, no side restriction. -/
def sample_canvas : FieldCanvas :=
  { path_points := [⟨0, 0⟩, ⟨50, 0⟩]
    selected_waypoint_index := 0
    waypoint_commands := no_commands
    pending_clasp := false
    scoops_to_release := 0
    dragging_curve := false
    selected_side := Side.noSide
    central_line_x := 180 }

/-- An editing state whose path visits the same coordinate `(5, 5)` at two
different positions (positions 0 and 2), with position 0 selected. -/
def dup_canvas : FieldCanvas :=
  { path_points := [⟨5, 5⟩, ⟨7, 7⟩, ⟨5, 5⟩]
    selected_waypoint_index := 0
    waypoint_commands := no_commands
    pending_clasp := false
    scoops_to_release := 0
    dragging_curve := false
    selected_side := Side.noSide
    central_line_x := 180 }

/-- An editing state restricted to the left of a central line at `x = 150`. -/
def left_canvas : FieldCanvas :=
  { path_points := [⟨100, 100⟩]
    selected_waypoint_index := -1
    waypoint_commands := no_commands
    pending_clasp := false
    scoops_to_release := 0
    dragging_curve := false
    selected_side := Side.left
    central_line_x := 150 }

/-- An editing state in the middle of a curve drag gesture
(`dragging_curve = True`). -/
def mid_gesture_canvas : FieldCanvas :=
  { path_points := [⟨0, 0⟩, ⟨50, 0⟩]
    selected_waypoint_index := -1
    waypoint_commands := no_commands
    pending_clasp := false
    scoops_to_release := 0
    dragging_curve := true
    selected_side := Side.noSide
    central_line_x := 180 }

/-! ## The claims -/

/-- **C3** (confirmed): with a waypoint selected, `assign_command`'s effect on
`{pending_clasp, scoops_to_release}` and its error behaviour agree, for every
state and every command, with the §4.3 table `tryAssignSpec`; and the table
sends Clasp→Scoop→Release from any state back to `{clasped := false,
pendingScoops := 0}`. -/
theorem claim_C3 :
    (∀ (s : FieldCanvas) (c : Cmd), s.selected_waypoint_index ≠ -1 →
      (match tryAssignSpec ⟨s.pending_clasp, s.scoops_to_release⟩ c with
       | Except.ok st =>
         (assign_command s c).2 = Option.none ∧
         (assign_command s c).1.pending_clasp = st.clasped ∧
         (assign_command s c).1.scoops_to_release = st.pendingScoops
       | Except.error e =>
         (assign_command s c).2 = Option.some e ∧ (assign_command s c).1 = s)) ∧
    (∀ st : CmdState,
      (tryAssignSpec st Cmd.clasp).bind
        (fun s1 => (tryAssignSpec s1 Cmd.scoop).bind
          (fun s2 => tryAssignSpec s2 Cmd.release)) = Except.ok ⟨false, 0⟩) := by
  constructor
  · intro s c h
    rcases hpc : s.pending_clasp with _ | _ <;> cases c <;>
      rcases hn : s.scoops_to_release with _ | n <;>
      simp [assign_command, tryAssignSpec, h, hpc, hn]
  · intro st
    simp [tryAssignSpec, Except.bind]

/-- Witness for C3: assigning Clasp on a concrete state with waypoint 0
selected succeeds and raises the clasp flag. -/
theorem claim_C3_witness :
    sample_canvas.selected_waypoint_index ≠ -1 ∧
    ((assign_command sample_canvas Cmd.clasp).2 = Option.none ∧
     (assign_command sample_canvas Cmd.clasp).1.pending_clasp = true ∧
     (assign_command sample_canvas Cmd.clasp).1.scoops_to_release = 0) :=
  ⟨by decide, claim_C3.1 sample_canvas Cmd.clasp (by decide)⟩

/-- **C4** (confirmed): every rejection of `assign_command` is atomic — the
whole canvas state (in particular the command table and
`{pending_clasp, scoops_to_release}`) is returned unchanged. -/
theorem claim_C4 (s : FieldCanvas) (c : Cmd) (e : CommandError)
    (h : (assign_command s c).2 = Option.some e) :
    (assign_command s c).1 = s ∧
    (assign_command s c).1.waypoint_commands = s.waypoint_commands ∧
    (assign_command s c).1.pending_clasp = s.pending_clasp ∧
    (assign_command s c).1.scoops_to_release = s.scoops_to_release := by
  have key : (assign_command s c).1 = s := by
    by_cases h1 : s.selected_waypoint_index = -1
    · simp [assign_command, h1]
    · rcases hpc : s.pending_clasp with _ | _ <;> cases c <;>
        rcases hn : s.scoops_to_release with _ | n <;>
        simp_all [assign_command]
  exact ⟨key, by rw [key], by rw [key], by rw [key]⟩

/-- Witness for C4: Scoop with the clasp closed is rejected with
`claspRequired` and leaves the concrete state untouched. -/
theorem claim_C4_witness :
    (assign_command sample_canvas Cmd.scoop).2 =
      Option.some CommandError.claspRequired ∧
    (assign_command sample_canvas Cmd.scoop).1 = sample_canvas :=
  ⟨by decide,
   (claim_C4 sample_canvas Cmd.scoop CommandError.claspRequired (by decide)).1⟩

/-- **C10** (confirmed): the command table is keyed by coordinate value, not
by path position.  If positions `i` (selected) and `j` hold equal
coordinates, a successful `assign_command` stores the command visible from
both positions, `remove_command` clears it for both, and the export's
per-segment lookup (`segment_export` with `waypoint_commands[p1]`) emits the
same command at both positions. -/
theorem claim_C10 (s : FieldCanvas) (c : Cmd) (i j : ℕ)
    (hsel : s.selected_waypoint_index = (i : ℤ))
    (hok : (assign_command s c).2 = Option.none)
    (heq : s.path_points.getD j ⟨0, 0⟩ = s.path_points.getD i ⟨0, 0⟩) :
    ((assign_command s c).1.waypoint_commands (s.path_points.getD j ⟨0, 0⟩) = c) ∧
    ((remove_command s).1.waypoint_commands (s.path_points.getD j ⟨0, 0⟩) =
      Cmd.none) ∧
    (∀ p2 : Point,
      segment_export (s.path_points.getD j ⟨0, 0⟩) p2
          ((assign_command s c).1.waypoint_commands (s.path_points.getD j ⟨0, 0⟩)) =
        segment_export (s.path_points.getD i ⟨0, 0⟩) p2
          ((assign_command s c).1.waypoint_commands
            (s.path_points.getD i ⟨0, 0⟩))) := by
  have hne : ¬ s.selected_waypoint_index = -1 := by
    rw [hsel]; intro hcon; omega
  have hwp : s.path_points.getD s.selected_waypoint_index.toNat ⟨0, 0⟩ =
      s.path_points.getD i ⟨0, 0⟩ := by
    rw [hsel, Int.toNat_natCast]
  have hassign : (assign_command s c).1.waypoint_commands =
      Function.update s.waypoint_commands (s.path_points.getD i ⟨0, 0⟩) c := by
    rcases hpc : s.pending_clasp with _ | _ <;> cases c <;>
      rcases hn : s.scoops_to_release with _ | n <;>
      simp_all [assign_command]
  have hremove : (remove_command s).1.waypoint_commands =
      Function.update s.waypoint_commands (s.path_points.getD i ⟨0, 0⟩) Cmd.none := by
    simp [remove_command, hne]
    rw [hsel, Int.toNat_natCast]
  refine ⟨?_, ?_, ?_⟩
  · rw [hassign, heq, Function.update_same]
  · rw [hremove, heq, Function.update_same]
  · intro p2
    rw [heq]

/-- Witness for C10: with coordinate `(5, 5)` at positions 0 and 2 and
position 0 selected, assigning PickUp succeeds and is visible at position 2. -/
theorem claim_C10_witness :
    dup_canvas.selected_waypoint_index = ((0 : ℕ) : ℤ) ∧
    (assign_command dup_canvas Cmd.pickUp).2 = Option.none ∧
    dup_canvas.path_points.getD 2 ⟨0, 0⟩ = dup_canvas.path_points.getD 0 ⟨0, 0⟩ ∧
    (assign_command dup_canvas Cmd.pickUp).1.waypoint_commands
      (dup_canvas.path_points.getD 2 ⟨0, 0⟩) = Cmd.pickUp :=
  ⟨by decide, by decide, by decide,
   (claim_C10 dup_canvas Cmd.pickUp 0 2 (by decide) (by decide) (by decide)).1⟩

/-- **C8** (confirmed): under the left (resp. right) restriction, appending a
point — straight or curve-start — is rejected with `restrictedRegion`
exactly when its `x` exceeds `central_line_x - CENTRAL_LINE_OFFSET` (resp.
falls below `central_line_x + CENTRAL_LINE_OFFSET`); with the line at 150
and margin 10, a straight point at `x = 145` is rejected and one at
`x = 140` is accepted. -/
theorem claim_C8 :
    (∀ (s : FieldCanvas) (p : Point), s.selected_side = Side.left →
      ((add_straight_line s p).2 = Option.some PathError.restrictedRegion ↔
        s.central_line_x - CENTRAL_LINE_OFFSET < p.x) ∧
      ((start_curve_point s p).2 = Option.some PathError.restrictedRegion ↔
        s.central_line_x - CENTRAL_LINE_OFFSET < p.x)) ∧
    (∀ (s : FieldCanvas) (p : Point), s.selected_side = Side.right →
      ((add_straight_line s p).2 = Option.some PathError.restrictedRegion ↔
        p.x < s.central_line_x + CENTRAL_LINE_OFFSET) ∧
      ((start_curve_point s p).2 = Option.some PathError.restrictedRegion ↔
        p.x < s.central_line_x + CENTRAL_LINE_OFFSET)) ∧
    ((add_straight_line left_canvas ⟨145, 50⟩).2 =
      Option.some PathError.restrictedRegion ∧
     (add_straight_line left_canvas ⟨140, 50⟩).2 = Option.none) := by
  refine ⟨?_, ?_, ?_, ?_⟩
  · intro s p hside
    constructor <;>
    · by_cases hx : s.central_line_x - CENTRAL_LINE_OFFSET < p.x
      · simp [add_straight_line, start_curve_point, is_valid_point, hside, hx]
      · by_cases hempty : s.path_points.isEmpty <;>
          simp [add_straight_line, start_curve_point, is_valid_point, hside, hx, hempty]
  · intro s p hside
    constructor <;>
    · by_cases hx : p.x < s.central_line_x + CENTRAL_LINE_OFFSET
      · simp [add_straight_line, start_curve_point, is_valid_point, hside, hx]
      · by_cases hempty : s.path_points.isEmpty <;>
          simp [add_straight_line, start_curve_point, is_valid_point, hside, hx, hempty]
  · have hx : left_canvas.central_line_x - CENTRAL_LINE_OFFSET < (145 : ℚ) := by
      norm_num [left_canvas, CENTRAL_LINE_OFFSET]
    simp [add_straight_line, is_valid_point, left_canvas, CENTRAL_LINE_OFFSET]
    norm_num
  · have hx : ¬ left_canvas.central_line_x - CENTRAL_LINE_OFFSET < (140 : ℚ) := by
      norm_num [left_canvas, CENTRAL_LINE_OFFSET]
    simp [add_straight_line, is_valid_point, left_canvas, CENTRAL_LINE_OFFSET]
    norm_num

/-- Witness for C8: the left-restriction criterion applied to the concrete
state with the line at 150. -/
theorem claim_C8_witness :
    left_canvas.selected_side = Side.left ∧
    ((add_straight_line left_canvas ⟨145, 50⟩).2 =
        Option.some PathError.restrictedRegion ↔
      left_canvas.central_line_x - CENTRAL_LINE_OFFSET < (145 : ℚ)) :=
  ⟨rfl, (claim_C8.1 left_canvas ⟨145, 50⟩ rfl).1⟩

/-- Counterexample to **C9** as stated: in a state with an open curve gesture
(`dragging_curve = True`), starting a new straight waypoint does *not* fail
with `curveInProgress` — it succeeds and appends to the path. -/
theorem claim_C9_counterexample :
    mid_gesture_canvas.dragging_curve = true ∧
    (add_straight_line mid_gesture_canvas ⟨60, 0⟩).2 ≠
      Option.some PathError.curveInProgress ∧
    (add_straight_line mid_gesture_canvas ⟨60, 0⟩).2 = Option.none ∧
    (add_straight_line mid_gesture_canvas ⟨60, 0⟩).1.path_points ≠
      mid_gesture_canvas.path_points := by
  refine ⟨rfl, ?_, ?_, ?_⟩ <;> decide

/-- **C9 amended** (the code has no curve-gesture guard): while a gesture is
open, `add_straight_line` and `start_curve_point` still succeed on any valid
point and append the waypoint; no operation ever reports
`curveInProgress`. -/
theorem claim_C9_amended (s : FieldCanvas) (p : Point)
    (hdrag : s.dragging_curve = true)
    (hvalid : is_valid_point s p.x = true)
    (hne : s.path_points ≠ []) :
    ((add_straight_line s p).2 = Option.none ∧
     (add_straight_line s p).1.path_points = s.path_points ++ [p]) ∧
    ((start_curve_point s p).2 = Option.none ∧
     (start_curve_point s p).1.path_points = s.path_points ++ [p]) ∧
    (∀ (s' : FieldCanvas) (q : Point),
      (add_straight_line s' q).2 ≠ Option.some PathError.curveInProgress ∧
      (start_curve_point s' q).2 ≠ Option.some PathError.curveInProgress) := by
  have hempty : s.path_points.isEmpty = false := by
    rw [List.isEmpty_eq_false]; exact hne
  refine ⟨?_, ?_, ?_⟩
  · simp [add_straight_line, hvalid, hempty]
  · simp [start_curve_point, hvalid, hempty]
  · intro s' q
    refine ⟨?_, ?_⟩
    · rw [add_straight_line]; split_ifs <;> simp
    · rw [start_curve_point]; split_ifs <;> simp

/-- Witness for C9 amended: the mid-gesture state accepts a straight
waypoint at `(60, 0)`. -/
theorem claim_C9_witness :
    mid_gesture_canvas.dragging_curve = true ∧
    is_valid_point mid_gesture_canvas (60 : ℚ) = true ∧
    ((add_straight_line mid_gesture_canvas ⟨60, 0⟩).2 = Option.none ∧
     (add_straight_line mid_gesture_canvas ⟨60, 0⟩).1.path_points =
       mid_gesture_canvas.path_points ++ [⟨60, 0⟩]) :=
  ⟨by decide, by decide,
   (claim_C9_amended mid_gesture_canvas ⟨60, 0⟩ (by decide) (by decide)
     (by decide)).1⟩

/-- Counterexample to **C1** as stated: exporting a path holding only the
start waypoint does not fail — both files are written, the struct-array
file holding its boilerplate and zero records, the transcript zero lines. -/
theorem claim_C1_counterexample :
    c_file_lines [(⟨0, 0⟩ : Point)] no_commands ≠ Option.none ∧
    c_file_lines [(⟨0, 0⟩ : Point)] no_commands =
      Option.some [CFileLine.includeHeader, CFileLine.enumDef, CFileLine.structDef,
        CFileLine.arrayOpen, CFileLine.arrayClose, CFileLine.countDecl] ∧
    txt_file_lines [(⟨0, 0⟩ : Point)] no_commands = Option.some [] := by
  refine ⟨?_, ?_, ?_⟩ <;>
    simp [c_file_lines, txt_file_lines, compile, no_commands]

/-- **C1 amended**: for a path with fewer than 2 waypoints the export does
not raise `InsufficientPoints`; for the single start waypoint (command
`'None'`) it writes both files with zero instructions (boilerplate-only
struct-array file, empty transcript).  (A non-`'None'` command on the lone
waypoint instead crashes on the unbound `heading`, and an empty path crashes
indexing `path_points[-1]` — the `Option.none` cases of `compile`.) -/
theorem claim_C1_amended (p : Point) (cmds : Point → Cmd)
    (h : cmds p = Cmd.none) :
    compile [p] cmds = Option.some [] ∧
    c_file_lines [p] cmds =
      Option.some [CFileLine.includeHeader, CFileLine.enumDef, CFileLine.structDef,
        CFileLine.arrayOpen, CFileLine.arrayClose, CFileLine.countDecl] ∧
    txt_file_lines [p] cmds = Option.some [] := by
  refine ⟨?_, ?_, ?_⟩ <;> simp [c_file_lines, txt_file_lines, compile, h]

/-- Witness for C1 amended at a concrete one-point path. -/
theorem claim_C1_witness :
    no_commands (⟨3, 4⟩ : Point) = Cmd.none ∧
    compile [(⟨3, 4⟩ : Point)] no_commands = Option.some [] :=
  ⟨rfl, (claim_C1_amended ⟨3, 4⟩ no_commands rfl).1⟩

/-- `compile` on a two-point path: one loop iteration plus the optional
trailing actuator record. -/
theorem compile_pair (p1 p2 : Point) (cmds : Point → Cmd) :
    compile [p1, p2] cmds =
      Option.some (segment_export p1 p2 (cmds p1) ++
        (if cmds p2 = Cmd.none then []
         else [Instruction.actuator (cmds p2) p2 (p1, p2)])) := rfl

/-- Densifying the degenerate straight segment from a point to itself yields
exactly that point (`n = max 1 0 = 1`, `t = 1`). -/
theorem gen_self (p : Point) :
    generate_intermediate_points p p Option.none 3 = [p] := by
  have h0 : distSq p p = 0 := by simp [distSq]
  have hn : num_points p p 3 = 1 := by
    simp [num_points, ratSqrtFloor, h0]
  simp [generate_intermediate_points, hn, List.range_succ, lerp]

/-- **C7** (confirmed): for every path of at least 2 waypoints whose last
waypoint `b` carries a non-`'None'` command, the export emits, after all
loop output, exactly one trailing actuator record at `b` with speed `0` and
the heading of the final segment `(a, b)`. -/
theorem claim_C7 (front : List Point) (a b : Point) (cmds : Point → Cmd)
    (h : cmds b ≠ Cmd.none) :
    compile (front ++ [a, b]) cmds =
      Option.some (compile_loop (front ++ [a, b]) cmds ++
        [Instruction.actuator (cmds b) b (a, b)]) ∧
    Instruction.speed (Instruction.actuator (cmds b) b (a, b)) = 0 ∧
    Instruction.heading (Instruction.actuator (cmds b) b (a, b)) =
      calculate_heading a b := by
  refine ⟨?_, rfl, rfl⟩
  cases front with
  | nil => simp [compile, compile_loop, compile_body, h]
  | cons f fs =>
    have hsnd := compile_body_snd cmds fs f a b
    cases fs with
    | nil =>
      simp only [List.cons_append, List.nil_append] at hsnd ⊢
      simp [compile, compile_loop, hsnd, h]
    | cons g gs =>
      simp only [List.cons_append] at hsnd ⊢
      simp [compile, compile_loop, hsnd, h]

/-- Witness for C7: a two-point path whose endpoint carries Clasp. -/
theorem claim_C7_witness :
    (fun _ : Point => Cmd.clasp) (⟨1, 2⟩ : Point) ≠ Cmd.none ∧
    compile ([] ++ [(⟨0, 0⟩ : Point), ⟨1, 2⟩]) (fun _ => Cmd.clasp) =
      Option.some (compile_loop ([] ++ [(⟨0, 0⟩ : Point), ⟨1, 2⟩]) (fun _ => Cmd.clasp) ++
        [Instruction.actuator ((fun _ : Point => Cmd.clasp) ⟨1, 2⟩) ⟨1, 2⟩
          (⟨0, 0⟩, ⟨1, 2⟩)]) :=
  ⟨by decide, (claim_C7 [] ⟨0, 0⟩ ⟨1, 2⟩ (fun _ => Cmd.clasp) (by decide)).1⟩

/-- **C6** (confirmed): every move record the export emits carries speed
`min(maxSpeed, baseSpeed + (s/100)·(maxSpeed − baseSpeed))`
`= min(100, 40 + (s/100)·60)` where `s` is its distance from the segment's
start waypoint; that start waypoint is the first of a consecutive waypoint
pair of the path, and the record's position is one of that segment's
intermediate points. -/
theorem claim_C6 (pts : List Point) (cmds : Point → Cmd) (l : List Instruction)
    (hc : compile pts cmds = Option.some l)
    (q : Point) (seg : Point × Point)
    (hm : Instruction.move q seg ∈ l) :
    Instruction.speed (Instruction.move q seg) =
      min 100 (40 + Real.sqrt ((distSq seg.1 q : ℚ) : ℝ) / 100 * (100 - 40)) ∧
    consecPair pts seg.1 seg.2 ∧
    q ∈ generate_intermediate_points seg.1 seg.2 Option.none 3 := by
  have hspeed : Instruction.speed (Instruction.move q seg) =
      min 100 (40 + Real.sqrt ((distSq seg.1 q : ℚ) : ℝ) / 100 * (100 - 40)) := by
    simp [Instruction.speed, calculate_dynamic_speed, calculate_distance, min_comm]
  refine ⟨hspeed, ?_⟩
  cases pts with
  | nil => simp [compile] at hc
  | cons p1 rest =>
    cases rest with
    | nil =>
      by_cases hcp : cmds p1 = Cmd.none
      · simp only [compile, hcp, if_pos, Option.some.injEq] at hc
        subst hc
        simp at hm
      · simp [compile, hcp] at hc
    | cons p2 rest2 =>
      rw [compile] at hc
      rw [Option.some.injEq] at hc
      subst hc
      rcases List.mem_append.mp hm with hbody | htrail
      · obtain ⟨x, y, hpair, hse⟩ := compile_body_mem cmds (p2 :: rest2) p1 _ hbody
        rcases (segment_export_mem x y (cmds x) _).mp hse with ⟨_, habs⟩ | ⟨q2, hq2, hmv⟩
        · exact absurd habs (by simp)
        · have hq1 : q2 = q := ((Instruction.move.injEq _ _ _ _).mp hmv.symm).1
          have hseg : (x, y) = seg := ((Instruction.move.injEq _ _ _ _).mp hmv.symm).2
          subst hq1
          rw [← hseg]
          exact ⟨hpair, hq2⟩
      · split_ifs at htrail with hlast
        · simp at htrail
        · simp at htrail

/-- Witness for C6: the degenerate two-point path at the origin emits one
move record, whose speed obeys the ramp formula. -/
theorem claim_C6_witness :
    compile [(⟨0, 0⟩ : Point), ⟨0, 0⟩] no_commands =
      Option.some [Instruction.move ⟨0, 0⟩ (⟨0, 0⟩, ⟨0, 0⟩)] ∧
    Instruction.move (⟨0, 0⟩ : Point) ((⟨0, 0⟩ : Point), (⟨0, 0⟩ : Point)) ∈
      [Instruction.move (⟨0, 0⟩ : Point) ((⟨0, 0⟩ : Point), (⟨0, 0⟩ : Point))] ∧
    Instruction.speed
        (Instruction.move (⟨0, 0⟩ : Point) ((⟨0, 0⟩ : Point), (⟨0, 0⟩ : Point))) =
      min 100 (40 +
        Real.sqrt ((distSq (⟨0, 0⟩ : Point) (⟨0, 0⟩ : Point) : ℚ) : ℝ) / 100 *
          (100 - 40)) := by
  have hc : compile [(⟨0, 0⟩ : Point), ⟨0, 0⟩] no_commands =
      Option.some [Instruction.move ⟨0, 0⟩ (⟨0, 0⟩, ⟨0, 0⟩)] := by
    rw [compile_pair]
    simp [segment_export, gen_self, no_commands]
  exact ⟨hc, by simp,
    (claim_C6 [⟨0, 0⟩, ⟨0, 0⟩] no_commands _ hc ⟨0, 0⟩ (⟨0, 0⟩, ⟨0, 0⟩)
      (by simp)).1⟩

/-- `le_sqrt_check` is false when the threshold is positive and the squared
distance falls short of its square. -/
theorem le_sqrt_check_false_of {d s : ℚ} (hd : 0 < d) (hs : s < d ^ 2) :
    le_sqrt_check d s = false := by
  simp [le_sqrt_check, not_le.mpr hd, not_le.mpr hs]

/-- `le_sqrt_check` is true as soon as the squared threshold is met. -/
theorem le_sqrt_check_true_of {d s : ℚ} (h : d ^ 2 ≤ s) :
    le_sqrt_check d s = true := by
  simp [le_sqrt_check, h]

/-- Straight densification always emits exactly `num_points` sub-points. -/
theorem gen_straight_length (p1 p2 : Point) (d : ℚ) :
    (generate_intermediate_points p1 p2 Option.none d).length = num_points p1 p2 d := by
  simp [generate_intermediate_points]

/-- The `i`-th (0-based) straight sub-point sits at parameter `(i+1)/n`. -/
theorem gen_straight_getElem (p1 p2 : Point) (d : ℚ) (i : ℕ)
    (hi : i < num_points p1 p2 d) :
    (generate_intermediate_points p1 p2 Option.none d)[i]? =
      Option.some (lerp p1 p2 ((i + 1 : ℚ) / ((num_points p1 p2 d : ℕ) : ℚ))) := by
  simp only [generate_intermediate_points]
  rw [List.getElem?_map, List.getElem?_range hi]
  rfl

/-- The final straight sub-point is `p2` exactly (`t = n/n = 1`). -/
theorem gen_straight_getLast (p1 p2 : Point) (d : ℚ) :
    (generate_intermediate_points p1 p2 Option.none d).getLast? =
      Option.some p2 := by
  have hn1 : 1 ≤ num_points p1 p2 d := le_max_left _ _
  rw [List.getLast?_eq_getElem?, gen_straight_length]
  have hi : num_points p1 p2 d - 1 < num_points p1 p2 d := by omega
  simp only [generate_intermediate_points]
  rw [List.getElem?_map, List.getElem?_range hi]
  have hcast : ((num_points p1 p2 d - 1 : ℕ) : ℚ) + 1 =
      (num_points p1 p2 d : ℚ) := by
    push_cast [Nat.cast_sub hn1]
    ring
  have hne0 : ((num_points p1 p2 d : ℕ) : ℚ) ≠ 0 :=
    Nat.cast_ne_zero.mpr (by omega)
  simp only [Option.map_some']
  rw [hcast, div_self hne0]
  congr 1
  refine Point.ext ?_ ?_ <;> simp [lerp]

/-- On an all-`'None'` command table, a two-point export is exactly the move
records of the straight densification. -/
theorem compile_pair_none (p1 p2 : Point) :
    compile [p1, p2] no_commands =
      Option.some ((generate_intermediate_points p1 p2 Option.none 3).map
        (fun q => Instruction.move q (p1, p2))) := by
  rw [compile_pair]
  simp [segment_export, no_commands]

/-- Scenario A's point count: `max(1, ⌊100/3⌋) = 33`. -/
theorem scenarioA_num_points : num_points ⟨0, 0⟩ ⟨100, 0⟩ 3 = 33 := by
  have hs : distSq ⟨0, 0⟩ ⟨100, 0⟩ = 10000 := by norm_num [distSq]
  rw [num_points_eq_max_floor _ _ _ (by norm_num), hs]
  have h1 : ((10000 : ℚ) : ℝ) = 100 ^ 2 := by norm_num
  have h3 : ((3 : ℚ) : ℝ) = 3 := by norm_num
  rw [h1, h3, Real.sqrt_sq (by norm_num : (0 : ℝ) ≤ 100)]
  have h33 : ⌊(100 : ℝ) / 3⌋₊ = 33 := by
    rw [Nat.floor_eq_iff (by positivity)]
    norm_num
  rw [h33]
  exact max_eq_right (by norm_num)

/-- **C5** (confirmed): straight densification emits exactly
`n = max(1, ⌊distance(p1,p2)/d⌋)` sub-points, the `i`-th (0-based) at
parameter `t = (i+1)/n` on the line from `p1` to `p2`, so the final
sub-point equals `p2` exactly; and compiling the path `[(0,0), (100,0)]`
(threshold 3) yields exactly `⌊100/3⌋ = 33` move records, all with heading
`0`. -/
theorem claim_C5 :
    (∀ (p1 p2 : Point) (d : ℚ), 0 < d →
      (generate_intermediate_points p1 p2 Option.none d).length =
        max 1 ⌊Real.sqrt ((distSq p1 p2 : ℚ) : ℝ) / (d : ℝ)⌋₊ ∧
      (∀ i : ℕ, i < max 1 ⌊Real.sqrt ((distSq p1 p2 : ℚ) : ℝ) / (d : ℝ)⌋₊ →
        (generate_intermediate_points p1 p2 Option.none d)[i]? =
          Option.some (lerp p1 p2 ((i + 1 : ℚ) /
            ((max 1 ⌊Real.sqrt ((distSq p1 p2 : ℚ) : ℝ) / (d : ℝ)⌋₊ : ℕ) : ℚ)))) ∧
      (generate_intermediate_points p1 p2 Option.none d).getLast? =
        Option.some p2) ∧
    (∃ l, compile [⟨0, 0⟩, ⟨100, 0⟩] no_commands = Option.some l ∧
      l.length = 33 ∧
      ∀ inst ∈ l,
        (∃ q, inst = Instruction.move q (⟨0, 0⟩, ⟨100, 0⟩)) ∧
        Instruction.heading inst = 0) := by
  constructor
  · intro p1 p2 d hd
    rw [← num_points_eq_max_floor p1 p2 d hd]
    exact ⟨gen_straight_length p1 p2 d,
      fun i hi => gen_straight_getElem p1 p2 d i hi,
      gen_straight_getLast p1 p2 d⟩
  · refine ⟨(generate_intermediate_points ⟨0, 0⟩ ⟨100, 0⟩ Option.none 3).map
      (fun q => Instruction.move q (⟨0, 0⟩, ⟨100, 0⟩)),
      compile_pair_none ⟨0, 0⟩ ⟨100, 0⟩, ?_, ?_⟩
    · rw [List.length_map, gen_straight_length, scenarioA_num_points]
    · intro inst hmem
      obtain ⟨q, hq, rfl⟩ := List.mem_map.mp hmem
      refine ⟨⟨q, rfl⟩, ?_⟩
      show calculate_heading ⟨0, 0⟩ ⟨100, 0⟩ = 0
      exact calculate_heading_horizontal _ _ (by norm_num) (by norm_num)

/-- Witness for C5: the degenerate segment, threshold 3. -/
theorem claim_C5_witness :
    (0 : ℚ) < 3 ∧
    (generate_intermediate_points ⟨0, 0⟩ ⟨0, 0⟩ Option.none 3).getLast? =
      Option.some (⟨0, 0⟩ : Point) :=
  ⟨by norm_num, (claim_C5.1 ⟨0, 0⟩ ⟨0, 0⟩ 3 (by norm_num)).2.2⟩

/-- The degenerate "curve" from `(0,0)` to `(100,0)` with control `(50,0)`
samples exactly to the integer points `(k, 0)`, `k = 0, …, 100`. -/
theorem cex_samples :
    calculate_quadratic_bezier_points ⟨0, 0⟩ ⟨100, 0⟩ ⟨50, 0⟩ =
      (List.range 101).map (fun k : ℕ => (⟨(k : ℚ), 0⟩ : Point)) := by
  rw [calculate_quadratic_bezier_points]
  refine List.map_congr_left ?_
  intro k _
  refine Point.ext ?_ ?_ <;> simp [bezier_point] <;> ring

/-- The same sample list, split into head `(0,0)` and tail `(k+1, 0)`. -/
theorem cex_samples_cons :
    calculate_quadratic_bezier_points ⟨0, 0⟩ ⟨100, 0⟩ ⟨50, 0⟩ =
      (⟨0, 0⟩ : Point) ::
        (List.range 100).map (fun k => (⟨((k + 1 : ℕ) : ℚ), 0⟩ : Point)) := by
  rw [cex_samples]
  rw [show (101 : ℕ) = 100 + 1 from rfl, List.range_succ_eq_map]
  simp [List.map_map, Function.comp_def]

/-- Counterexample to **C2** as stated: on this curve every consecutive
sample step has length 1 < 3, so the code keeps *nothing*, while the
claimed previous-retained-point rule keeps every third sample (e.g.
`(3, 0)`) — the two densifications disagree. -/
theorem claim_C2_counterexample :
    generate_intermediate_points ⟨0, 0⟩ ⟨100, 0⟩ (Option.some ⟨50, 0⟩) 3 = [] ∧
    densify_curve_spec ⟨0, 0⟩ ⟨100, 0⟩ ⟨50, 0⟩ 3 ≠ [] := by
  constructor
  · simp only [generate_intermediate_points, cex_samples_cons]
    rw [consec_filter_eq_nil_iff, ← cex_samples_cons, cex_samples]
    rw [List.chain'_map]
    rw [show (101 : ℕ) = Nat.succ 100 from rfl, List.chain'_range_succ]
    intro m _
    apply le_sqrt_check_false_of (by norm_num)
    have h1 : distSq ⟨(m : ℚ), 0⟩ ⟨((Nat.succ m : ℕ) : ℚ), 0⟩ = 1 := by
      simp only [distSq]
      push_cast
      ring
    rw [h1]
    norm_num
  · simp only [densify_curve_spec, cex_samples_cons]
    intro hnil
    rw [retain_walk_eq_nil_iff] at hnil
    have hmem : (⟨((2 + 1 : ℕ) : ℚ), 0⟩ : Point) ∈
        (List.range 100).map (fun k => (⟨((k + 1 : ℕ) : ℚ), 0⟩ : Point)) :=
      List.mem_map.mpr ⟨2, by simp, rfl⟩
    have hfalse := hnil _ hmem
    have htrue : le_sqrt_check 3 (distSq ⟨0, 0⟩ ⟨((2 + 1 : ℕ) : ℚ), 0⟩) = true := by
      apply le_sqrt_check_true_of
      norm_num [distSq]
    rw [htrue] at hfalse
    exact Bool.noConfusion hfalse

/-- **C2 amended**: the Bezier branch samples 101 fixed `t`-steps
(`t = k/100`) and keeps a sampled point exactly when its distance from the
immediately *preceding sampled* point (not the previous retained point) is
at least `d` — equivalently, it is the pairwise filter over consecutive
samples, with the threshold test agreeing with the real comparison
`distance ≥ d`.  (The exporter itself never reaches this branch: it calls
`generate_intermediate_points` without a control point, since the committed
control is not stored and the exporter's curve condition requires an active
drag whose handler does not exist.) -/
theorem claim_C2_amended (p1 p2 c : Point) (d : ℚ) :
    (calculate_quadratic_bezier_points p1 p2 c).length = 101 ∧
    (∀ k : ℕ, k < 101 →
      (calculate_quadratic_bezier_points p1 p2 c)[k]? =
        Option.some (bezier_point p1 p2 c ((k : ℚ) / 100))) ∧
    (generate_intermediate_points p1 p2 (Option.some c) d =
      (((calculate_quadratic_bezier_points p1 p2 c).zip
          (calculate_quadratic_bezier_points p1 p2 c).tail).filter
        (fun pr => le_sqrt_check d (distSq pr.1 pr.2))).map Prod.snd) ∧
    (∀ a b : Point,
      le_sqrt_check d (distSq a b) = true ↔ (d : ℝ) ≤ calculate_distance a b) := by
  refine ⟨?_, ?_, ?_, fun a b => le_sqrt_check_iff d a b⟩
  · simp [calculate_quadratic_bezier_points]
  · intro k hk
    rw [calculate_quadratic_bezier_points, List.getElem?_map, List.getElem?_range hk]
    rfl
  · obtain ⟨q, rest, hqr⟩ : ∃ q rest,
        calculate_quadratic_bezier_points p1 p2 c = q :: rest := by
      rw [calculate_quadratic_bezier_points,
        show (101 : ℕ) = 100 + 1 from rfl, List.range_succ_eq_map]
      exact ⟨_, _, rfl⟩
    simp only [generate_intermediate_points, hqr, List.tail_cons]
    rw [consec_filter_eq_zip_filter]

/-- Witness for C2 amended: the sample at `k = 3`. -/
theorem claim_C2_witness :
    (3 : ℕ) < 101 ∧
    (calculate_quadratic_bezier_points ⟨0, 0⟩ ⟨100, 0⟩ ⟨50, 0⟩)[3]? =
      Option.some (bezier_point ⟨0, 0⟩ ⟨100, 0⟩ ⟨50, 0⟩ (((3 : ℕ) : ℚ) / 100)) :=
  ⟨by norm_num, (claim_C2_amended ⟨0, 0⟩ ⟨100, 0⟩ ⟨50, 0⟩ 3).2.1 3 (by norm_num)⟩

end RobotPath
